import Mathlib

/-!
Verification of the `wold` Wake-on-LAN relay.

This file is a shallow embedding of `src/main.rs` into Lean 4:
bytes are `Nat` values below 256, byte strings are `List Nat`,
Rust `Option`/`Result` become `Option`/`Except`, and the network
side effects of `wol` are modelled as an explicit event trace
parameterised by an environment describing which system calls
succeed.  HTTP status codes are plain `Nat` values.
-/

namespace Wold

/-- Model of `std::net::SocketAddr` restricted to what the program uses:
an IP given as its list of octets, and a port. -/
structure SocketAddr where
  ip : List Nat
  port : Nat
deriving DecidableEq

/-- The default listen address of `main`: `SocketAddr::from(([127, 0, 0, 1], 3000))`. -/
def defaultListenAddr : SocketAddr := ⟨[127, 0, 0, 1], 3000⟩

/-- The default broadcast destination of `main`: `SocketAddr::from(([255; 4], 9))`. -/
def defaultBroadcastAddr : SocketAddr := ⟨[255, 255, 255, 255], 9⟩

/-- The local address `wol` binds its socket to:
`SocketAddr::from(([0, 0, 0, 0], 0))`, the wildcard address with an
OS-assigned port. -/
def wildcardAddr : SocketAddr := ⟨[0, 0, 0, 0], 0⟩

/-- Embedding of the nested helper `f` inside `eui48` in `src/main.rs`:
decodes one ASCII hexadecimal digit byte to its value, matching the three
Rust range arms for digits, uppercase and lowercase letters. -/
def f (c : Nat) : Option Nat :=
  if 48 ≤ c ∧ c ≤ 57 then some (c - 48)
  else if 65 ≤ c ∧ c ≤ 70 then some (c - 65 + 0xa)
  else if 97 ≤ c ∧ c ≤ 102 then some (c - 97 + 0xa)
  else none

/-- Embedding of the slice-pattern access in the `eui48` loop body:
`s.get(i * 3..)` matched against the pattern
`[c1, c2, ':' | '-', ..] | [c1, c2]`.
`58` is the byte of a colon and `45` the byte of a hyphen.
A suffix of any other shape makes the group invalid. -/
def groupAt (s : List Nat) (i : Nat) : Option (Nat × Nat) :=
  match s.drop (3 * i) with
  | c1 :: c2 :: 58 :: _ => some (c1, c2)
  | c1 :: c2 :: 45 :: _ => some (c1, c2)
  | [c1, c2] => some (c1, c2)
  | _ => none

/-- Embedding of the `for (i, m) in mac.iter_mut().enumerate()` loop in
`eui48`: decodes `fuel` consecutive groups starting at group index `i`.
The byte written is `a.wrapping_shl(4) | b`, which for `u8` is
`(a <<< 4) % 256 ||| b`. -/
def decodeFrom (s : List Nat) (i : Nat) : Nat → Option (List Nat)
  | 0 => some []
  | fuel + 1 =>
    match groupAt s i with
    | some (c1, c2) =>
      match f c1, f c2 with
      | some a, some b =>
        (decodeFrom s (i + 1) fuel).map (fun rest => (((a <<< 4) % 256) ||| b) :: rest)
      | _, _ => none
    | none => none

/-- Embedding of `eui48` in `src/main.rs`: the length must be
`2 * 6 + 5 = 17`, then the six two-character groups are decoded in order. -/
def eui48 (s : List Nat) : Option (List Nat) :=
  if s.length ≠ 2 * 6 + 5 then none
  else decodeFrom s 0 6

/-- A byte is a separator accepted between groups: a colon or a hyphen. -/
def isSepB (c : Nat) : Bool := c == 58 || c == 45

/-- A byte is a valid hexadecimal digit, i.e. one `f` accepts. -/
def isHexB (c : Nat) : Bool := (f c).isSome

/-- The validity condition on a raw token as the specification states it:
length exactly 17, hexadecimal digits at the twelve group positions
`3*i` and `3*i + 1`, and a colon or hyphen at the five gap positions
`3*i + 2`. -/
def validTokenB (s : List Nat) : Bool :=
  (s.length == 17) &&
  isHexB (s.getD 0 0) && isHexB (s.getD 1 0) && isSepB (s.getD 2 0) &&
  isHexB (s.getD 3 0) && isHexB (s.getD 4 0) && isSepB (s.getD 5 0) &&
  isHexB (s.getD 6 0) && isHexB (s.getD 7 0) && isSepB (s.getD 8 0) &&
  isHexB (s.getD 9 0) && isHexB (s.getD 10 0) && isSepB (s.getD 11 0) &&
  isHexB (s.getD 12 0) && isHexB (s.getD 13 0) && isSepB (s.getD 14 0) &&
  isHexB (s.getD 15 0) && isHexB (s.getD 16 0)

/-- The constant `MAGIC_PACKET_HEADER: [u8; 6] = [0xff; 6]`. -/
def MAGIC_PACKET_HEADER : List Nat := List.replicate 6 0xff

/-- One `copy_from_slice` into a buffer viewed as a function from byte
index to byte value: positions `start ≤ k < start + src.length` now read
from `src`, any other position is unchanged. -/
def writeRange (b : Nat → Nat) (start : Nat) (src : List Nat) (k : Nat) : Nat :=
  if start ≤ k ∧ k < start + src.length then src.getD (k - start) 0 else b k

/-- Embedding of the unsafe in-place construction in `wol`: starting from
an uninitialized buffer with arbitrary contents `init`, the 6-byte header
is copied to offset 0, then the loop over `(*p)[6..].chunks_mut(6)`
copies `mac` to offsets `6 + 6*i` for `i` in `0..16`
(`(102 - 6) / 6 = 16` chunks). -/
def wolMagicFun (init : Nat → Nat) (mac : List Nat) : Nat → Nat :=
  (List.range 16).foldl (fun b i => writeRange b (6 + 6 * i) mac)
    (writeRange init 0 MAGIC_PACKET_HEADER)

/-- The 102-byte magic packet built by `wol`, read back out of the buffer
as a byte list. -/
def wolMagic (init : Nat → Nat) (mac : List Nat) : List Nat :=
  (List.range 102).map (wolMagicFun init mac)

/-- Modelled from the spec (design notes): the reference construction of
the magic packet by straightforward sequential writes into a freshly
sized buffer — the 6-byte `0xFF` header followed by 16 copies of the
address appended in order. -/
def build (mac : List Nat) : List Nat :=
  List.replicate 6 0xff ++ (List.replicate 16 mac).flatten

/-- One observable network action performed by `wol`: binding a UDP
socket, enabling broadcast on it, or handing a datagram to the
transport towards a destination. -/
inductive NetEvent
  | bind (addr : SocketAddr)
  | setBroadcast (b : Bool)
  | sendTo (payload : List Nat) (dst : SocketAddr)
deriving DecidableEq

/-- Environment describing which of the three fallible system calls in
`wol` succeed: `UdpSocket::bind`, `set_broadcast`, `send_to`. -/
structure NetEnv where
  bindOk : Bool
  setBroadcastOk : Bool
  sendOk : Bool

/-- Recognises the datagram-transmission events in a trace. -/
def isSendTo : NetEvent → Bool
  | NetEvent.sendTo _ _ => true
  | _ => false

/-- Embedding of `wol` in `src/main.rs`: builds the magic packet, binds a
socket to the wildcard address with port 0, enables broadcast, and sends
the packet to `dst`.  Each `?`-propagated failure stops the sequence and
returns an error; the second component records the actions attempted, in
order, including the failed last one. -/
def wol (env : NetEnv) (init : Nat → Nat) (dst : SocketAddr) (mac : List Nat) :
    Except Unit Unit × List NetEvent :=
  let magic := wolMagic init mac
  if env.bindOk then
    if env.setBroadcastOk then
      if env.sendOk then
        (Except.ok (), [NetEvent.bind wildcardAddr, NetEvent.setBroadcast true,
                        NetEvent.sendTo magic dst])
      else
        (Except.error (), [NetEvent.bind wildcardAddr, NetEvent.setBroadcast true,
                           NetEvent.sendTo magic dst])
    else (Except.error (), [NetEvent.bind wildcardAddr, NetEvent.setBroadcast true])
  else (Except.error (), [NetEvent.bind wildcardAddr])

/-- Embedding of `handle_wol_request`: decode the target with `eui48`;
on decode failure answer 400 (BAD_REQUEST) without touching the network;
otherwise answer 200 (OK) if `wol` succeeded and 500
(INTERNAL_SERVER_ERROR) if it failed.  The second component is the trace
of network actions performed while serving the request. -/
def handle_wol_request (env : NetEnv) (init : Nat → Nat) (dst : SocketAddr)
    (target : List Nat) : Nat × List NetEvent :=
  match eui48 target with
  | some mac =>
    match wol env init dst mac with
    | (Except.ok _, ev) => (200, ev)
    | (Except.error _, ev) => (500, ev)
  | none => (400, [])

/-- Embedding of the `CmdLine` enum of `src/main.rs`. -/
inductive CmdLine
  | Help : CmdLine
  | Run : Option SocketAddr → Option SocketAddr → CmdLine
deriving DecidableEq

/-- Embedding of the `while let` loop of `parse_command_line`,
parameterised by `parse`, the model of `str::parse::<SocketAddr>`.  The
accumulators mirror the two mutable `Option` locals.  The Rust match arms
in order: `("--help" | "-h", _)` answers `Help` at once; `("-l", Some(_))`
and `("-d", Some(_))` consume the next argument and replace the
respective accumulator, failing if it does not parse; every other
combination — including `-l`/`-d` as the last argument — is an unknown
option error. -/
def parse_command_line_go (parse : String → Option SocketAddr) :
    List String → Option SocketAddr → Option SocketAddr → Except String CmdLine
  | [], listen_addr, broadcast_addr => Except.ok (CmdLine.Run listen_addr broadcast_addr)
  | opt :: rest, listen_addr, broadcast_addr =>
    if opt = "--help" ∨ opt = "-h" then Except.ok CmdLine.Help
    else if opt = "-l" then
      match rest with
      | value :: rest2 =>
        match parse value with
        | some a => parse_command_line_go parse rest2 (some a) broadcast_addr
        | none => Except.error ("failed to parse command line: " ++ opt ++ ", " ++ value)
      | [] => Except.error ("unknown option: " ++ opt)
    else if opt = "-d" then
      match rest with
      | value :: rest2 =>
        match parse value with
        | some a => parse_command_line_go parse rest2 listen_addr (some a)
        | none => Except.error ("failed to parse command line: " ++ opt ++ ", " ++ value)
      | [] => Except.error ("unknown option: " ++ opt)
    else Except.error ("unknown option: " ++ opt)

/-- Embedding of `parse_command_line`: the loop starts with both
accumulators `None`. -/
def parse_command_line (parse : String → Option SocketAddr) (args : List String) :
    Except String CmdLine :=
  parse_command_line_go parse args none none

/-- What `main` does after command-line parsing: print help, or serve
with a listen address and a broadcast destination. -/
inductive MainOutcome
  | help : MainOutcome
  | run : SocketAddr → SocketAddr → MainOutcome
deriving DecidableEq

/-- Embedding of `main` up to the decision of what to do: a parse error
aborts the process; `Help` prints the usage text; `Run` serves with the
supplied endpoints, each defaulting via `unwrap_or` to the fixed values
declared at the top of `main`. -/
def mainModel (parse : String → Option SocketAddr) (args : List String) :
    Except String MainOutcome :=
  match parse_command_line parse args with
  | Except.error e => Except.error e
  | Except.ok CmdLine.Help => Except.ok MainOutcome.help
  | Except.ok (CmdLine.Run l b) =>
      Except.ok (MainOutcome.run (l.getD defaultListenAddr) (b.getD defaultBroadcastAddr))

/-- Model of the `Display` rendering of a `SocketAddr`, dotted octets
then a colon and the port, as interpolated into the usage text. -/
def sockAddrDisplay (a : SocketAddr) : String :=
  String.intercalate "." (a.ip.map Nat.repr) ++ ":" ++ Nat.repr a.port

/-- Embedding of the text printed by `help` in `src/main.rs`, with the
two interpolations substituted. -/
def help (addr dst : SocketAddr) : String :=
  "USAGE:\n    wold [OPTIONS]\n\nOPTIONS:\n    -l <address>:<port>     start a server with a provided address (default: "
    ++ sockAddrDisplay addr
    ++ ")\n    -b <address>:<port>     send magic packets to a provided address (default: "
    ++ sockAddrDisplay dst
    ++ ")\n\n    --help, -h              display this message and exit\n"

end Wold

namespace Wold

example : eui48 [48, 49, 58, 50, 51, 58, 52, 53, 58, 54, 55, 58, 56, 57, 58, 97, 98]
    = some [0x01, 0x23, 0x45, 0x67, 0x89, 0xab] := by decide

example : eui48 [48, 49, 45, 50, 51, 58, 52, 53, 45, 54, 55, 58, 56, 57, 45, 97, 98]
    = some [0x01, 0x23, 0x45, 0x67, 0x89, 0xab] := by decide

example : eui48 [48, 49, 58, 50, 51, 58, 52, 53, 58, 54, 55, 58, 56, 57] = none := by decide

lemma f_lt {c v : Nat} (h : f c = some v) : v < 16 := by
  unfold f at h
  split_ifs at h with h1 h2 h3 <;> simp_all <;> omega

lemma shl_lor_eq (v w : Nat) (hv : v < 16) (hw : w < 16) :
    ((v <<< 4) % 256) ||| w = v * 16 + w := by
  have key : ∀ (a b : Fin 16), ((a.val <<< 4) % 256) ||| b.val = a.val * 16 + b.val := by
    decide
  exact key ⟨v, hv⟩ ⟨w, hw⟩

lemma groupAt_shift (u v w : Nat) (rest : List Nat) (i : Nat) :
    groupAt (u :: v :: w :: rest) (i + 1) = groupAt rest i := by
  unfold groupAt
  rw [show 3 * (i + 1) = 3 * i + 1 + 1 + 1 by ring]
  simp [List.drop_succ_cons]

lemma decodeFrom_shift (fuel : Nat) :
    ∀ (i u v w : Nat) (rest : List Nat),
      decodeFrom (u :: v :: w :: rest) (i + 1) fuel = decodeFrom rest i fuel := by
  induction fuel with
  | zero => intro i u v w rest; rfl
  | succ n ih =>
    intro i u v w rest
    simp only [decodeFrom, groupAt_shift, ih]

lemma groupAt_cons3 (c1 c2 x : Nat) (rest : List Nat) :
    groupAt (c1 :: c2 :: x :: rest) 0 =
      if isSepB x then some (c1, c2) else none := by
  unfold groupAt isSepB
  by_cases h58 : x = 58
  · subst h58; rfl
  · by_cases h45 : x = 45
    · subst h45; rfl
    · simp only [Nat.mul_zero, List.drop_zero]
      split
      · simp_all
      · simp_all
      · simp_all
      · simp [h58, h45]

lemma decodeFrom_step_none (c1 c2 x : Nat) (rest : List Nat) (fuel : Nat) :
    (decodeFrom (c1 :: c2 :: x :: rest) 0 (fuel + 1) = none ↔
      (isSepB x && isHexB c1 && isHexB c2) = false ∨ decodeFrom rest 0 fuel = none) := by
  simp only [decodeFrom, groupAt_cons3]
  by_cases hx : isSepB x
  · rcases hc1 : f c1 with _ | a
    · simp [hx, hc1, isHexB]
    · rcases hc2 : f c2 with _ | b
      · simp [hx, hc1, hc2, isHexB]
      · simp [hx, hc1, hc2, isHexB, decodeFrom_shift]
  · simp [hx]

lemma decodeFrom_last_none (c1 c2 : Nat) :
    (decodeFrom [c1, c2] 0 1 = none ↔ (isHexB c1 && isHexB c2) = false) := by
  simp only [decodeFrom]
  have hg : groupAt [c1, c2] 0 = some (c1, c2) := rfl
  rw [hg]
  rcases hc1 : f c1 with _ | a
  · simp [hc1, isHexB]
  · rcases hc2 : f c2 with _ | b
    · simp [hc1, hc2, isHexB]
    · simp [hc1, hc2, isHexB, decodeFrom]

lemma decodeFrom_length (s : List Nat) :
    ∀ (fuel i : Nat) (l : List Nat), decodeFrom s i fuel = some l → l.length = fuel := by
  intro fuel
  induction fuel with
  | zero =>
    intro i l h
    simp only [decodeFrom, Option.some.injEq] at h
    subst h; rfl
  | succ n ih =>
    intro i l h
    simp only [decodeFrom] at h
    rcases hg : groupAt s i with _ | ⟨c1, c2⟩
    · simp only [hg] at h; cases h
    · simp only [hg] at h
      rcases hc1 : f c1 with _ | a
      · rcases hc2 : f c2 with _ | b <;> simp only [hc1, hc2] at h <;> cases h
      · rcases hc2 : f c2 with _ | b
        · simp only [hc1, hc2] at h; cases h
        · simp only [hc1, hc2] at h
          rcases hrec : decodeFrom s (i + 1) n with _ | rest <;> rw [hrec] at h
          · cases h
          · cases h
            simp [ih (i + 1) rest hrec]

lemma wolMagic_eq_build (init : Nat → Nat) (m0 m1 m2 m3 m4 m5 : Nat) :
    wolMagic init [m0, m1, m2, m3, m4, m5] = build [m0, m1, m2, m3, m4, m5] := rfl

end Wold

namespace Wold

/-- C1: for every 6-byte hardware address, the payload constructed by
`wol` is exactly 102 bytes; bytes [0..6) are all 0xFF; for every `i` in
0..16 bytes [6+6*i..6+6*(i+1)) equal the 6 address bytes verbatim; and
the construction is deterministic — the arbitrary initial contents of the
uninitialized buffer never show through, so the same address always
yields a byte-identical payload. -/
theorem wol_packet_layout (init : Nat → Nat) (m0 m1 m2 m3 m4 m5 : Nat) :
    (wolMagic init [m0, m1, m2, m3, m4, m5]).length = 102 ∧
    (∀ k, k < 6 → (wolMagic init [m0, m1, m2, m3, m4, m5]).getD k 0 = 0xff) ∧
    (∀ i j, i < 16 → j < 6 →
      (wolMagic init [m0, m1, m2, m3, m4, m5]).getD (6 + 6 * i + j) 0
        = [m0, m1, m2, m3, m4, m5].getD j 0) ∧
    (∀ init2 : Nat → Nat,
      wolMagic init2 [m0, m1, m2, m3, m4, m5] = wolMagic init [m0, m1, m2, m3, m4, m5]) := by
  refine ⟨by simp [wolMagic], ?_, ?_, ?_⟩
  · intro k hk
    interval_cases k <;> rfl
  · intro i j hi hj
    interval_cases i <;> interval_cases j <;> rfl
  · intro init2
    rw [wolMagic_eq_build, wolMagic_eq_build]

/-- Witness for C1 at the address `01:02:03:04:05:06` and a zeroed
initial buffer: the header byte and the last repeated byte. -/
theorem wol_packet_layout_witness :
    (wolMagic (fun _ => 0) [1, 2, 3, 4, 5, 6]).getD 0 0 = 0xff ∧
    (wolMagic (fun _ => 0) [1, 2, 3, 4, 5, 6]).getD (6 + 6 * 15 + 5) 0 = 6 := by
  refine ⟨(wol_packet_layout (fun _ => 0) 1 2 3 4 5 6).2.1 0 (by decide), ?_⟩
  have h := (wol_packet_layout (fun _ => 0) 1 2 3 4 5 6).2.2.1 15 5 (by decide) (by decide)
  simpa using h

/-- C2: every 17-byte token with hexadecimal digits at the group
positions and, independently at each of the 5 gaps, a colon or a hyphen,
decodes with `eui48` to the 6 bytes in which group `i` is
`high * 16 + low`. -/
theorem eui48_valid
    (c0 c1 c2 c3 c4 c5 c6 c7 c8 c9 c10 c11 : Nat)
    (s0 s1 s2 s3 s4 : Nat)
    (v0 v1 v2 v3 v4 v5 v6 v7 v8 v9 v10 v11 : Nat)
    (h0 : f c0 = some v0) (h1 : f c1 = some v1) (h2 : f c2 = some v2)
    (h3 : f c3 = some v3) (h4 : f c4 = some v4) (h5 : f c5 = some v5)
    (h6 : f c6 = some v6) (h7 : f c7 = some v7) (h8 : f c8 = some v8)
    (h9 : f c9 = some v9) (h10 : f c10 = some v10) (h11 : f c11 = some v11)
    (hs0 : s0 = 58 ∨ s0 = 45) (hs1 : s1 = 58 ∨ s1 = 45)
    (hs2 : s2 = 58 ∨ s2 = 45) (hs3 : s3 = 58 ∨ s3 = 45)
    (hs4 : s4 = 58 ∨ s4 = 45) :
    eui48 [c0, c1, s0, c2, c3, s1, c4, c5, s2, c6, c7, s3, c8, c9, s4, c10, c11]
      = some [v0 * 16 + v1, v2 * 16 + v3, v4 * 16 + v5,
              v6 * 16 + v7, v8 * 16 + v9, v10 * 16 + v11] := by
  rcases hs0 with rfl | rfl <;> rcases hs1 with rfl | rfl <;>
    rcases hs2 with rfl | rfl <;> rcases hs3 with rfl | rfl <;>
    rcases hs4 with rfl | rfl <;>
  simp [eui48, decodeFrom, groupAt, h0, h1, h2, h3, h4, h5, h6, h7, h8, h9, h10, h11,
    shl_lor_eq _ _ (f_lt h0) (f_lt h1), shl_lor_eq _ _ (f_lt h2) (f_lt h3),
    shl_lor_eq _ _ (f_lt h4) (f_lt h5), shl_lor_eq _ _ (f_lt h6) (f_lt h7),
    shl_lor_eq _ _ (f_lt h8) (f_lt h9), shl_lor_eq _ _ (f_lt h10) (f_lt h11)]

/-- Witness for C2 at the bytes of `"01:23:45:67:89:ab"`. -/
theorem eui48_valid_witness :
    eui48 [48, 49, 58, 50, 51, 58, 52, 53, 58, 54, 55, 58, 56, 57, 58, 97, 98]
      = some [0x01, 0x23, 0x45, 0x67, 0x89, 0xab] :=
  eui48_valid 48 49 50 51 52 53 54 55 56 57 97 98 58 58 58 58 58
    0 1 2 3 4 5 6 7 8 9 10 11
    (by decide) (by decide) (by decide) (by decide) (by decide) (by decide)
    (by decide) (by decide) (by decide) (by decide) (by decide) (by decide)
    (Or.inl rfl) (Or.inl rfl) (Or.inl rfl) (Or.inl rfl) (Or.inl rfl)

/-- C3: `eui48` fails, with the single uniform failure value `none` and
no partial result, exactly when the input is not a valid token: wrong
length (17, which also forces end of input right after the last group),
a non-hexadecimal byte at a group position, or a gap byte other than a
colon or a hyphen. -/
theorem eui48_none_iff (s : List Nat) :
    eui48 s = none ↔ validTokenB s = false := by
  by_cases hlen : s.length = 17
  · rcases s with _ | ⟨a0, _ | ⟨a1, _ | ⟨a2, _ | ⟨a3, _ | ⟨a4, _ | ⟨a5, _ | ⟨a6, _ | ⟨a7,
      _ | ⟨a8, _ | ⟨a9, _ | ⟨a10, _ | ⟨a11, _ | ⟨a12, _ | ⟨a13, _ | ⟨a14, _ | ⟨a15,
      _ | ⟨a16, _ | ⟨a17, s⟩⟩⟩⟩⟩⟩⟩⟩⟩⟩⟩⟩⟩⟩⟩⟩⟩⟩ <;> simp_all
    rw [show eui48 [a0, a1, a2, a3, a4, a5, a6, a7, a8, a9, a10, a11, a12, a13, a14, a15, a16]
          = decodeFrom [a0, a1, a2, a3, a4, a5, a6, a7, a8, a9, a10, a11, a12, a13, a14, a15, a16] 0 6
        from by simp [eui48]]
    rw [decodeFrom_step_none, decodeFrom_step_none, decodeFrom_step_none,
        decodeFrom_step_none, decodeFrom_step_none, decodeFrom_last_none]
    simp only [validTokenB, List.getD, List.get?, Bool.and_eq_false_iff]
    simp
    tauto
  · simp [eui48, validTokenB, hlen]

/-- C7: the in-place uninitialized-buffer construction of the magic
packet in `wol` is byte-identical, for every 6-byte address and every
initial buffer contents, to the reference construction `build` that
appends a fresh header and 16 copies of the address sequentially. -/
theorem wol_inPlace_refines_build (init : Nat → Nat) (m0 m1 m2 m3 m4 m5 : Nat) :
    wolMagic init [m0, m1, m2, m3, m4, m5] = build [m0, m1, m2, m3, m4, m5] := rfl

/-- C9: `eui48` is a total function on arbitrary byte sequences: every
input yields either `none` or `some` of a 6-byte value; there is no
other outcome, and in the embedding every slice access is a total
pattern match, mirroring the checked `s.get` patterns of the source. -/
theorem eui48_total (s : List Nat) :
    eui48 s = none ∨ ∃ a, eui48 s = some a ∧ a.length = 6 := by
  rcases h : eui48 s with _ | a
  · exact Or.inl rfl
  · refine Or.inr ⟨a, rfl, ?_⟩
    unfold eui48 at h
    split at h
    · cases h
    · exact decodeFrom_length s 6 0 a h

end Wold

namespace Wold

/-- C4: the handler maps the three pipeline outcomes to three distinct
stable HTTP status codes: a decode failure yields 400 with an empty
network trace (no packet built, no send attempted); a successful decode
followed by a send failure yields 500; a successful decode and send
yields 200. -/
theorem handle_wol_request_outcomes (env : NetEnv) (init : Nat → Nat) (dst : SocketAddr)
    (target : List Nat) :
    (eui48 target = none → handle_wol_request env init dst target = (400, [])) ∧
    (∀ mac, eui48 target = some mac →
      ((wol env init dst mac).1 = Except.ok () →
        (handle_wol_request env init dst target).1 = 200) ∧
      ((wol env init dst mac).1 ≠ Except.ok () →
        (handle_wol_request env init dst target).1 = 500)) := by
  refine ⟨fun h => by simp [handle_wol_request, h], fun mac h => ⟨?_, ?_⟩⟩
  · intro hw
    rcases hr : wol env init dst mac with ⟨res, ev⟩
    rw [hr] at hw
    cases res with
    | error e => simp at hw
    | ok u => simp [handle_wol_request, h, hr]
  · intro hw
    rcases hr : wol env init dst mac with ⟨res, ev⟩
    rw [hr] at hw
    cases res with
    | error e => simp [handle_wol_request, h, hr]
    | ok u => cases u; simp at hw

/-- Witness for C4: an empty target fails to decode and the handler
answers 400 without network activity. -/
theorem handle_wol_request_outcomes_witness :
    handle_wol_request ⟨true, true, true⟩ (fun _ => 0) defaultBroadcastAddr [] = (400, []) :=
  (handle_wol_request_outcomes ⟨true, true, true⟩ (fun _ => 0) defaultBroadcastAddr []).1
    (by decide)

/-- C5: for every request whose token decodes, the trace of the handler
contains at most one datagram transmission; every transmitted datagram
is the 102-byte magic payload addressed to the configured destination;
every socket acquired is bound to the wildcard address with port 0 and
every broadcast flag set is `true`; and on success the trace is exactly
one fresh bind, one broadcast enable, and one send — never a second
datagram, never a retry after a failure. -/
theorem wol_dispatch_once (env : NetEnv) (init : Nat → Nat) (dst : SocketAddr)
    (target mac : List Nat) (h : eui48 target = some mac) :
    List.countP isSendTo (handle_wol_request env init dst target).2 ≤ 1 ∧
    (∀ p d, NetEvent.sendTo p d ∈ (handle_wol_request env init dst target).2 →
      p = wolMagic init mac ∧ p.length = 102 ∧ d = dst) ∧
    (∀ a, NetEvent.bind a ∈ (handle_wol_request env init dst target).2 → a = wildcardAddr) ∧
    (∀ b, NetEvent.setBroadcast b ∈ (handle_wol_request env init dst target).2 → b = true) ∧
    ((wol env init dst mac).1 = Except.ok () →
      (handle_wol_request env init dst target).2 =
        [NetEvent.bind wildcardAddr, NetEvent.setBroadcast true,
         NetEvent.sendTo (wolMagic init mac) dst]) := by
  rcases env with ⟨b1, b2, b3⟩
  cases b1 <;> cases b2 <;> cases b3 <;>
    simp_all [handle_wol_request, wol, isSendTo, wolMagic]

/-- Witness for C5 at the token `"01:23:45:67:89:ab"` and an
all-successful environment. -/
theorem wol_dispatch_once_witness :
    List.countP isSendTo
      (handle_wol_request ⟨true, true, true⟩ (fun _ => 0) defaultBroadcastAddr
        [48, 49, 58, 50, 51, 58, 52, 53, 58, 54, 55, 58, 56, 57, 58, 97, 98]).2 ≤ 1 :=
  (wol_dispatch_once ⟨true, true, true⟩ (fun _ => 0) defaultBroadcastAddr
    [48, 49, 58, 50, 51, 58, 52, 53, 58, 54, 55, 58, 56, 57, 58, 97, 98]
    [1, 35, 69, 103, 137, 171] (by decide)).1

/-- C6: with no arguments the process serves with the listen endpoint
defaulting to 127.0.0.1:3000 and the broadcast destination defaulting to
255.255.255.255 port 9; whenever parsing succeeds in run mode the
unspecified endpoints take those defaults; and a malformed endpoint value
after `-l` or `-d` makes command-line parsing return an error, so `main`
terminates without ever reaching a run outcome. -/
theorem mainModel_config (parse : String → Option SocketAddr) :
    (mainModel parse []
      = Except.ok (MainOutcome.run ⟨[127, 0, 0, 1], 3000⟩ ⟨[255, 255, 255, 255], 9⟩)) ∧
    (∀ args l b, parse_command_line parse args = Except.ok (CmdLine.Run l b) →
      mainModel parse args
        = Except.ok (MainOutcome.run (l.getD defaultListenAddr) (b.getD defaultBroadcastAddr))) ∧
    (∀ v rest, parse v = none →
      mainModel parse ("-l" :: v :: rest)
          = Except.error ("failed to parse command line: " ++ "-l" ++ ", " ++ v) ∧
      mainModel parse ("-d" :: v :: rest)
          = Except.error ("failed to parse command line: " ++ "-d" ++ ", " ++ v)) := by
  refine ⟨rfl, fun args l b hp => by simp [mainModel, hp], fun v rest hv => ⟨?_, ?_⟩⟩
  · simp [mainModel, parse_command_line, parse_command_line_go, hv]
  · simp [mainModel, parse_command_line, parse_command_line_go, hv]

/-- Witness for C6: a parser that rejects everything makes
`-l <malformed>` a startup error. -/
theorem mainModel_config_witness :
    mainModel (fun _ => none) ["-l", "x"]
      = Except.error ("failed to parse command line: " ++ "-l" ++ ", " ++ "x") :=
  ((mainModel_config (fun _ => none)).2.2 "x" [] rfl).1

set_option maxRecDepth 8000 in
/-- C8: an argument list whose next option is `-b` always makes
`parse_command_line` fail with an unknown-option error, whatever came
before or follows and whatever was already parsed — even though the
usage text printed by `help` advertises `-b <address>:<port>` as the
broadcast flag.  The broadcast destination can only be set with `-d`. -/
theorem dash_b_unknown (parse : String → Option SocketAddr) :
    (∀ rest listen_addr broadcast_addr,
      parse_command_line_go parse ("-b" :: rest) listen_addr broadcast_addr
        = Except.error ("unknown option: -b")) ∧
    (∀ rest, parse_command_line parse ("-b" :: rest) = Except.error ("unknown option: -b")) ∧
    (∃ pre suf, help defaultListenAddr defaultBroadcastAddr
        = pre ++ ("-b <address>:<port>" ++ suf)) := by
  refine ⟨fun rest l b => ?_, fun rest => ?_,
    ⟨"USAGE:\n    wold [OPTIONS]\n\nOPTIONS:\n    -l <address>:<port>     start a server with a provided address (default: 127.0.0.1:3000)\n    ",
     "     send magic packets to a provided address (default: 255.255.255.255:9)\n\n    --help, -h              display this message and exit\n",
     by decide⟩⟩
  · unfold parse_command_line_go
    simp
  · unfold parse_command_line parse_command_line_go
    simp

/-- C10: whenever `--help` or `-h` is examined in an option position,
parsing answers `Help` at once, discarding any listen or broadcast
endpoints accumulated from earlier arguments. -/
theorem help_flag_overrides (parse : String → Option SocketAddr) (opt : String)
    (hopt : opt = "--help" ∨ opt = "-h") (rest : List String)
    (listen_addr broadcast_addr : Option SocketAddr) :
    parse_command_line_go parse (opt :: rest) listen_addr broadcast_addr
      = Except.ok CmdLine.Help := by
  rcases hopt with rfl | rfl <;> (unfold parse_command_line_go; simp)

/-- Witness for C10: `-h` after an already-parsed listen endpoint still
answers `Help`, as in the source's own test. -/
theorem help_flag_overrides_witness :
    parse_command_line_go (fun _ => none) ["-h"] (some defaultListenAddr) none
      = Except.ok CmdLine.Help :=
  help_flag_overrides (fun _ => none) "-h" (Or.inr rfl) [] (some defaultListenAddr) none

end Wold
